import Mathlib

/-!
Verification of the Kaleidoscope front end (lexer, precedence-climbing
parser, AST construction, prototype registry) as implemented in
`src/lexer.cc` of the repository.  The lexer is modelled as a pure
function on a `List Char` (the unread character stream, with the
one-character lookahead `LastChar` being the head of that list and
end-of-list playing the role of `EOF`).  The parser is modelled on a
`List Tok` whose head is the one-token lookahead `CurTok`; `getNextToken`
is `List.tail`.  The mutually recursive parsing routines take a fuel
argument and are structurally recursive on it; fuel exhaustion yields a
distinguished error.  Machine doubles are modelled as exact rationals.
-/

namespace Kaleidoscope

/-! ## Character classification (C `<cctype>`, as used by `gettok`) -/

/-- C `isspace`: space (32), tab (9), newline (10), vertical tab (11),
form feed (12), carriage return (13). -/
def isspace (c : Char) : Bool :=
  c.toNat = 32 || (9 ≤ c.toNat && c.toNat ≤ 13)

/-- C `isdigit`: characters `0` (48) through `9` (57). -/
def isdigit (c : Char) : Bool :=
  48 ≤ c.toNat && c.toNat ≤ 57

/-- C `isalpha`: `a`..`z` (97..122) and `A`..`Z` (65..90). -/
def isalpha (c : Char) : Bool :=
  (97 ≤ c.toNat && c.toNat ≤ 122) || (65 ≤ c.toNat && c.toNat ≤ 90)

/-- C `isalnum`: alphabetic or digit. -/
def isalnum (c : Char) : Bool :=
  isalpha c || isdigit c

/-- C `isascii` applied to the `int` value of `CurTok`: true exactly for
0..127.  The keyword and special tokens have negative codes and are
therefore not ASCII. -/
def isascii (n : Int) : Bool :=
  0 ≤ n && n ≤ 127

/-! ## Tokens (`enum Token` in `lexer.cc` / `lexer/token.h`)

`gettok` returns either one of the negative `enum Token` codes (with the
payload globals `IdentifierStr` / `NumVal`) or the raw character code.
We package code and payload into one inductive; there is no error
variant, mirroring the source enum.  The constructor written
`tok_extern'` here models the enum's `tok_extern` (primed for Lean
naming reasons only). -/

inductive Tok where
  | tok_eof
  | tok_def
  | tok_extern'
  | tok_identifier (IdentifierStr : String)
  | tok_number (NumVal : ℚ)
  | tok_char (c : Char)
deriving DecidableEq, Repr

/-- The `int` value of a token as seen by the C code (`CurTok` is an
`int`): the negative enum codes, or the character code. -/
def tokCode : Tok → Int
  | .tok_eof => -1
  | .tok_def => -2
  | .tok_extern' => -3
  | .tok_identifier _ => -4
  | .tok_number _ => -5
  | .tok_char c => c.toNat

/-! ## `strtod` -/

/-- Numeric value of a single decimal digit character. -/
def digitVal (c : Char) : ℕ := c.toNat - 48

/-- Decimal value of a digit string. -/
def digitsToNat (ds : List Char) : ℕ :=
  ds.foldl (fun a c => 10 * a + digitVal c) 0

/-- Value of a fractional digit string `d₁…dₖ`, i.e. `0.d₁…dₖ`. -/
def fracVal (ds : List Char) : ℚ :=
  (digitsToNat ds : ℚ) / (10 : ℚ) ^ ds.length

/-- Modelled from the spec: the C library function `strtod` (not part of
this repository), "standard decimal parsing", restricted to the strings
`gettok` can pass it (digits and decimal points only, hence no sign or
exponent), and with exact rationals in place of IEEE doubles.  `strtod`
parses the longest valid prefix — an optional integer part, then
optionally a point and a fractional part — and ignores the rest, so
`"1.2.3"` yields `1.2`; if no conversion is possible it yields `0`. -/
def strtod (s : List Char) : ℚ :=
  let intDigits := s.takeWhile isdigit
  let rest := s.drop intDigits.length
  match rest with
  | '.' :: frac => (digitsToNat intDigits : ℚ) + fracVal (frac.takeWhile isdigit)
  | _ => (digitsToNat intDigits : ℚ)

/-! ## The lexer: `gettok` -/

/-- Predicate for the characters accumulated into `NumStr` by the number
branch of `gettok`. -/
def isnumchar (c : Char) : Bool := isdigit c || c = '.'

/-- Predicate for the characters skipped by the comment branch of
`gettok` (the loop runs while the character is neither EOF, `\n` nor
`\r`). -/
def iscommentchar (c : Char) : Bool := c ≠ '\n' && c ≠ '\r'

/-- `gettok` from `lexer.cc`: returns the next token and the remaining
character stream.  The head of the input list is the `LastChar`
lookahead; an empty list is `EOF`. -/
def gettok (input : List Char) : Tok × List Char :=
  match h : input.dropWhile isspace with
  | [] => (.tok_eof, [])
  | c :: rest =>
    if isalpha c then
      -- identifier / keyword branch
      let idStr := String.mk (c :: rest.takeWhile isalnum)
      let rest' := rest.dropWhile isalnum
      if idStr = "def" then (.tok_def, rest')
      else if idStr = "extern" then (.tok_extern', rest')
      else (.tok_identifier idStr, rest')
    else if isnumchar c then
      -- number branch
      let numStr := c :: rest.takeWhile isnumchar
      (.tok_number (strtod numStr), rest.dropWhile isnumchar)
    else if c = '#' then
      -- comment branch: skip to end of line, then either recurse
      -- (newline seen) or fall through to the EOF case (input exhausted)
      match h2 : rest.dropWhile iscommentchar with
      | [] => (.tok_eof, [])
      | d :: rest' => gettok (d :: rest')
    else
      -- operator / punctuation fallback
      (.tok_char c, rest)
termination_by input.length
decreasing_by
  have key : ∀ (q : Char → Bool) (l : List Char), (l.dropWhile q).length ≤ l.length := by
    intro q l
    induction l with
    | nil => simp [List.dropWhile]
    | cons a l ih =>
      rw [List.dropWhile_cons]
      split
      · exact Nat.le_succ_of_le ih
      · exact Nat.le_refl _
  have hr : rest.length < input.length := by
    have hs := key isspace input
    rw [h] at hs
    simp only [List.length_cons] at hs
    omega
  have hc : (d :: rest').length ≤ rest.length := by
    rw [← h2]
    exact key iscommentchar rest
  simp only [List.length_cons] at hc ⊢
  omega

/-- Run `gettok` repeatedly (as the driver's `getNextToken` loop does)
until it reports `tok_eof`, collecting the produced tokens. -/
def tokenizeAux : ℕ → List Char → List Tok
  | 0, _ => []
  | fuel + 1, s =>
    match gettok s with
    | (.tok_eof, _) => []
    | (t, rest) => t :: tokenizeAux fuel rest

/-- Token stream of a string.  Every call to `gettok` that does not
report `tok_eof` consumes at least one character, so `length + 1` calls
always reach the end of the input. -/
def tokenize (s : String) : List Tok :=
  tokenizeAux (s.length + 1) s.data

/-! ## AST node model (`ast/` headers and the classes in `lexer.cc`) -/

/-- The expression sum type: `NumberExprAST`, `VariableExprAST`,
`BinaryExprAST` and `CallExprAST` from the source, as one closed
inductive.  There is no parenthesis node. -/
inductive ExprAST where
  | NumberExprAST (Val : ℚ)
  | VariableExprAST (Name : String)
  | BinaryExprAST (Op : Char) (LHS RHS : ExprAST)
  | CallExprAST (Callee : String) (Args : List ExprAST)

/-- `PrototypeAST`: a function name and its argument names. -/
structure PrototypeAST where
  Name : String
  Args : List String
deriving DecidableEq, Repr

/-- `FunctionAST`: a prototype and a body expression. -/
structure FunctionAST where
  Proto : PrototypeAST
  Body : ExprAST

/-! ## Token buffer (`CurTok` / `getNextToken`) -/

/-- The parser's one-token lookahead: the head of the unconsumed token
list; past the end of the stream `gettok` keeps returning `tok_eof`. -/
def curTok (ts : List Tok) : Tok := ts.headD .tok_eof

/-- `getNextToken`: discard the current token, making the next one
current. -/
def getNextToken (ts : List Tok) : List Tok := ts.tail

/-! ## Precedence table (`BinopPrecedence`, `GetTokPrecedence`)

`BinopPrecedence` is a `std::map<char, int>`, modelled as a
key-sorted association list of `Int` pairs.  `GetTokPrecedence` reads it
with `operator[]`, which *inserts* a default-constructed (zero) entry
when the key is absent, so consultation returns the possibly-grown map
alongside the looked-up value. -/

/-- A `std::map<char, int>` value: entries sorted by key. -/
abbrev PrecMap := List (Int × Int)

/-- `std::map::operator[]` as used for reading in `GetTokPrecedence`:
returns the mapped value, inserting a zero entry (value-initialised
`int`) at the sorted position when the key is absent. -/
def mapIndex : PrecMap → Int → Int × PrecMap
  | [], k => (0, [(k, 0)])
  | (a, v) :: rest, k =>
    if k < a then (0, (k, 0) :: (a, v) :: rest)
    else if k = a then (v, (a, v) :: rest)
    else
      let r := mapIndex rest k
      (r.1, (a, v) :: r.2)

/-- `std::map::operator[] = value`, the upsert used by `main` to fill
`BinopPrecedence` at startup. -/
def mapSet (m : PrecMap) (k v : Int) : PrecMap :=
  match m with
  | [] => [(k, v)]
  | (a, w) :: rest =>
    if k < a then (k, v) :: (a, w) :: rest
    else if k = a then (a, v) :: rest
    else (a, w) :: mapSet rest k v

/-- `std::map::find`, as pure observation of the table's contents. -/
def mapFind : PrecMap → Int → Option Int
  | [], _ => none
  | (a, v) :: rest, k => if k = a then some v else mapFind rest k

/-- The table exactly as the four insertions in `main` leave it:
`'<'` (60) ↦ 10, `'+'` (43) ↦ 20, `'-'` (45) ↦ 20, `'*'` (42) ↦ 40. -/
def startupPrec : PrecMap :=
  mapSet (mapSet (mapSet (mapSet [] ('<'.toNat : Int) 10) ('+'.toNat : Int) 20)
    ('-'.toNat : Int) 20) ('*'.toNat : Int) 40

/-- `GetTokPrecedence` with its real effect on the table: `-1` for
non-ASCII token codes; otherwise read the map via `operator[]` (possibly
inserting a zero entry) and turn any value `≤ 0` into `-1`. -/
def GetTokPrecedence (CurTok : Int) (m : PrecMap) : Int × PrecMap :=
  if isascii CurTok then
    let r := mapIndex m CurTok
    if r.1 ≤ 0 then (-1, r.2) else (r.1, r.2)
  else (-1, m)

/-- The value `GetTokPrecedence` computes for a token against the
startup table.  Consultation never changes the result of any later
lookup (proved below), so the parser is written against this pure
view. -/
def GetTokPrecedencePure (t : Tok) : Int :=
  (GetTokPrecedence (tokCode t) startupPrec).1

/-- The `char Op` stored into a `BinaryExprAST`: the character of the
operator token.  Only tokens with positive precedence — necessarily
`tok_char` tokens — ever reach this conversion. -/
def tokChar : Tok → Char
  | .tok_char c => c
  | _ => '\x00'

/-! ## The parser

Each routine consumes tokens from the front of the list (the head being
`CurTok`) and returns either the built node with the remaining tokens,
or the diagnostic of the first error (`LogError` / `LogErrorP` print the
message and return null; we carry the message in the `Except` error).
The mutually recursive routines are structurally recursive on a fuel
argument; exhausted fuel yields the distinguished `"out of fuel"` error,
which no source diagnostic equals. -/

/-- `ParseNumberExpr`: called by `ParsePrimary` when the current token
is `tok_number`, whose payload is the lexer global `NumVal`; builds the
node and advances. -/
def ParseNumberExpr (NumVal : ℚ) (ts : List Tok) :
    Except String (ExprAST × List Tok) :=
  .ok (.NumberExprAST NumVal, getNextToken ts)

mutual

/-- `ParseExpression`: one primary as the left operand, then climb. -/
def ParseExpression : ℕ → List Tok → Except String (ExprAST × List Tok)
  | 0, _ => .error "out of fuel"
  | fuel + 1, ts =>
    match ParsePrimary fuel ts with
    | .error e => .error e
    | .ok (lhs, ts1) => ParseBinOpRHS fuel 0 lhs ts1

/-- `ParsePrimary`: dispatch on the current token. -/
def ParsePrimary : ℕ → List Tok → Except String (ExprAST × List Tok)
  | 0, _ => .error "out of fuel"
  | fuel + 1, ts =>
    match curTok ts with
    | .tok_identifier s => ParseIdentifierExpr fuel s ts
    | .tok_number v => ParseNumberExpr v ts
    | .tok_char '(' => ParseParenExpr fuel ts
    | _ => .error "Unknown token when expecting an expression"

/-- `ParseIdentifierExpr`: called when the current token is
`tok_identifier` with payload `IdentifierStr`; a bare name unless `(`
follows, else a call with a parenthesised argument list. -/
def ParseIdentifierExpr : ℕ → String → List Tok →
    Except String (ExprAST × List Tok)
  | 0, _, _ => .error "out of fuel"
  | fuel + 1, IdName, ts =>
    let ts1 := getNextToken ts
    if curTok ts1 ≠ .tok_char '(' then .ok (.VariableExprAST IdName, ts1)
    else
      let ts2 := getNextToken ts1
      if curTok ts2 = .tok_char ')' then
        .ok (.CallExprAST IdName [], getNextToken ts2)
      else ParseArgsLoop fuel IdName [] ts2

/-- The `while (true)` argument-list loop inside `ParseIdentifierExpr`:
parse an expression, then stop at `)`, continue past `,`, or report the
malformed-separator diagnostic. -/
def ParseArgsLoop : ℕ → String → List ExprAST → List Tok →
    Except String (ExprAST × List Tok)
  | 0, _, _, _ => .error "out of fuel"
  | fuel + 1, IdName, Args, ts =>
    match ParseExpression fuel ts with
    | .error e => .error e
    | .ok (arg, ts1) =>
      let Args1 := Args ++ [arg]
      if curTok ts1 = .tok_char ')' then
        .ok (.CallExprAST IdName Args1, getNextToken ts1)
      else if curTok ts1 ≠ .tok_char ',' then
        .error "Expected ')' or ',' in argument list"
      else ParseArgsLoop fuel IdName Args1 (getNextToken ts1)

/-- `ParseParenExpr`: eat `(`, parse the inner expression, require and
eat `)`, return the inner expression itself. -/
def ParseParenExpr : ℕ → List Tok → Except String (ExprAST × List Tok)
  | 0, _ => .error "out of fuel"
  | fuel + 1, ts =>
    let ts1 := getNextToken ts
    match ParseExpression fuel ts1 with
    | .error e => .error e
    | .ok (v, ts2) =>
      if curTok ts2 ≠ .tok_char ')' then .error "Expected )"
      else .ok (v, getNextToken ts2)

/-- `ParseBinOpRHS`: precedence climbing.  The `while (true)` loop of
the source is the tail-recursive call with the same `ExprPrec`; the
climb into a tighter-binding tail is the call with `TokPrec + 1`. -/
def ParseBinOpRHS : ℕ → Int → ExprAST → List Tok →
    Except String (ExprAST × List Tok)
  | 0, _, _, _ => .error "out of fuel"
  | fuel + 1, ExprPrec, LHS, ts =>
    let TokPrec := GetTokPrecedencePure (curTok ts)
    if TokPrec < ExprPrec then .ok (LHS, ts)
    else
      let BinOp := curTok ts
      let ts1 := getNextToken ts
      match ParsePrimary fuel ts1 with
      | .error e => .error e
      | .ok (RHS, ts2) =>
        let NextPrec := GetTokPrecedencePure (curTok ts2)
        if TokPrec < NextPrec then
          match ParseBinOpRHS fuel (TokPrec + 1) RHS ts2 with
          | .error e => .error e
          | .ok (RHS1, ts3) =>
            ParseBinOpRHS fuel ExprPrec
              (.BinaryExprAST (tokChar BinOp) LHS RHS1) ts3
        else
          ParseBinOpRHS fuel ExprPrec
            (.BinaryExprAST (tokChar BinOp) LHS RHS) ts2

end

/-- Token test for the parameter-name loop of `ParsePrototype`. -/
def isIdentTok : Tok → Bool
  | .tok_identifier _ => true
  | _ => false

/-- Names carried by the identifier tokens of a list prefix; used for
the parameter names collected by `ParsePrototype`. -/
def identNames (ts : List Tok) : List String :=
  (ts.takeWhile isIdentTok).filterMap fun t =>
    match t with
    | .tok_identifier s => some s
    | _ => none

/-- `ParsePrototype`: a function name, `(`, zero or more identifier
parameter names (the loop advances first and stops at the first
non-identifier without consuming it), and `)`. -/
def ParsePrototype (ts : List Tok) :
    Except String (PrototypeAST × List Tok) :=
  match curTok ts with
  | .tok_identifier FnName =>
    let ts1 := getNextToken ts
    if curTok ts1 ≠ .tok_char '(' then .error "Expected '(' in prototype"
    else
      let ts2 := getNextToken ts1
      let ArgNames := identNames ts2
      let ts3 := ts2.dropWhile isIdentTok
      if curTok ts3 ≠ .tok_char ')' then .error "Expected ')' in prototype"
      else .ok (⟨FnName, ArgNames⟩, getNextToken ts3)
  | _ => .error "Expected function name in prototype"

/-- `ParseDefinition`: eat `def`, parse a prototype, parse the body
expression, combine; either failure propagates. -/
def ParseDefinition (fuel : ℕ) (ts : List Tok) :
    Except String (FunctionAST × List Tok) :=
  let ts1 := getNextToken ts
  match ParsePrototype ts1 with
  | .error e => .error e
  | .ok (Proto, ts2) =>
    match ParseExpression fuel ts2 with
    | .error e => .error e
    | .ok (E, ts3) => .ok (⟨Proto, E⟩, ts3)

/-- `ParseTopLevelExpr`: parse one expression and wrap it in an
anonymous nullary function. -/
def ParseTopLevelExpr (fuel : ℕ) (ts : List Tok) :
    Except String (FunctionAST × List Tok) :=
  match ParseExpression fuel ts with
  | .error e => .error e
  | .ok (E, ts1) => .ok (⟨⟨"__anon_expr", []⟩, E⟩, ts1)

/-- `ParseExtern`: eat `extern`, parse a bare prototype. -/
def ParseExtern (ts : List Tok) :
    Except String (PrototypeAST × List Tok) :=
  ParsePrototype (getNextToken ts)

/-! ## End-to-end convenience wrappers for concrete inputs -/

/-- Parse a whole string as one expression, with ample fuel. -/
def parseExpressionString (s : String) :
    Except String (ExprAST × List Tok) :=
  ParseExpression (2 * s.length + 4) (tokenize s)

/-- Parse a whole string as a top-level expression, with ample fuel. -/
def parseTopLevelString (s : String) :
    Except String (FunctionAST × List Tok) :=
  ParseTopLevelExpr (2 * s.length + 4) (tokenize s)

/-! ## Prototype registry (`FunctionProtos`)

`FunctionProtos` is a `std::map<std::string, std::unique_ptr<PrototypeAST>>`.
`HandleExtern` records into it with `FunctionProtos[name] = proto`
(an unconditional upsert, as does `FunctionAST::codegen`), and
`getFunction` looks names up with `FunctionProtos.find(name)`.  The map
is modelled as an association list in which each key occurs at most
once; `recordProto` is the upsert and `lookupProto` the lookup. -/

abbrev ProtoRegistry := List (String × PrototypeAST)

/-- `record(name, prototype)`: `FunctionProtos[Name] = Proto` — replace
the entry for `Name` if present, otherwise add one. -/
def recordProto (m : ProtoRegistry) (k : String) (v : PrototypeAST) :
    ProtoRegistry :=
  match m with
  | [] => [(k, v)]
  | (a, w) :: rest =>
    if a = k then (a, v) :: rest else (a, w) :: recordProto rest k v

/-- `lookup(name)`: `FunctionProtos.find(Name)`, `absent` as `none`. -/
def lookupProto (m : ProtoRegistry) (k : String) : Option PrototypeAST :=
  match m with
  | [] => none
  | (a, w) :: rest => if a = k then some w else lookupProto rest k

/-- The registry resulting from a sequence of `record` operations
applied in order, starting from the empty startup state. -/
def applyRecords (ops : List (String × PrototypeAST)) : ProtoRegistry :=
  ops.foldl (fun m p => recordProto m p.1 p.2) []

/-- The most recently recorded prototype for a name in a sequence of
`record` operations, if any: later records overwrite earlier ones. -/
def lastRecorded (ops : List (String × PrototypeAST)) (k : String) :
    Option PrototypeAST :=
  ops.foldl (fun acc p => if p.1 = k then some p.2 else acc) none

/-- The `std::map` representation invariant: entries strictly sorted by
key.  The startup table has it and `operator[]` preserves it. -/
abbrev PrecSorted (m : PrecMap) : Prop :=
  m.Pairwise fun a b => a.1 < b.1

/-! ## Helper lemmas -/

theorem curTok_cons (t : Tok) (ts : List Tok) : curTok (t :: ts) = t := rfl

theorem getNextToken_cons (t : Tok) (ts : List Tok) :
    getNextToken (t :: ts) = ts := rfl

theorem tokenizeAux_cons {s rest : List Char} {t : Tok} {n : ℕ}
    (hg : gettok s = (t, rest)) (hne : t ≠ .tok_eof) :
    tokenizeAux (n + 1) s = t :: tokenizeAux n rest := by
  rw [tokenizeAux, hg]
  cases t with
  | tok_eof => exact absurd rfl hne
  | tok_def => rfl
  | tok_extern' => rfl
  | tok_identifier s => rfl
  | tok_number v => rfl
  | tok_char c => rfl

theorem tokenizeAux_eof {s w : List Char} {n : ℕ}
    (hg : gettok s = (.tok_eof, w)) :
    tokenizeAux (n + 1) s = [] := by
  rw [tokenizeAux, hg]

theorem strtod_digits_one : strtod ['1'] = 1 := rfl

theorem strtod_digits_two : strtod ['2'] = 2 := rfl

theorem strtod_digits_three : strtod ['3'] = 3 := rfl

theorem strtod_digits_42 : strtod ['4', '2'] = 42 := rfl

theorem tokenize_42 : tokenize "42" = [.tok_number 42] := by
  have h1 : gettok ['4', '2'] = (.tok_number 42, []) := by
    rw [gettok]; rfl
  have h2 : gettok ([] : List Char) = (.tok_eof, []) := by
    rw [gettok]; rfl
  show tokenizeAux 3 ['4', '2'] = _
  rw [tokenizeAux_cons h1 (by simp), tokenizeAux_eof h2]

theorem tokenize_abc : tokenize "a-b-c" =
    [.tok_identifier "a", .tok_char '-', .tok_identifier "b",
     .tok_char '-', .tok_identifier "c"] := by
  have h0 : gettok ([] : List Char) = (.tok_eof, []) := by rw [gettok]; rfl
  have h1 : gettok ['a', '-', 'b', '-', 'c'] =
      (.tok_identifier "a", ['-', 'b', '-', 'c']) := by rw [gettok]; rfl
  have h2 : gettok ['-', 'b', '-', 'c'] = (.tok_char '-', ['b', '-', 'c']) := by
    rw [gettok]; rfl
  have h3 : gettok ['b', '-', 'c'] = (.tok_identifier "b", ['-', 'c']) := by
    rw [gettok]; rfl
  have h4 : gettok ['-', 'c'] = (.tok_char '-', ['c']) := by rw [gettok]; rfl
  have h5 : gettok ['c'] = (.tok_identifier "c", []) := by rw [gettok]; rfl
  show tokenizeAux 6 ['a', '-', 'b', '-', 'c'] = _
  rw [tokenizeAux_cons h1 (by simp), tokenizeAux_cons h2 (by simp),
    tokenizeAux_cons h3 (by simp), tokenizeAux_cons h4 (by simp),
    tokenizeAux_cons h5 (by simp), tokenizeAux_eof h0]

theorem tokenize_123 : tokenize "1+2*3" =
    [.tok_number 1, .tok_char '+', .tok_number 2, .tok_char '*',
     .tok_number 3] := by
  have h0 : gettok ([] : List Char) = (.tok_eof, []) := by rw [gettok]; rfl
  have h1 : gettok ['1', '+', '2', '*', '3'] =
      (.tok_number 1, ['+', '2', '*', '3']) := by rw [gettok]; rfl
  have h2 : gettok ['+', '2', '*', '3'] = (.tok_char '+', ['2', '*', '3']) := by
    rw [gettok]; rfl
  have h3 : gettok ['2', '*', '3'] = (.tok_number 2, ['*', '3']) := by
    rw [gettok]; rfl
  have h4 : gettok ['*', '3'] = (.tok_char '*', ['3']) := by rw [gettok]; rfl
  have h5 : gettok ['3'] = (.tok_number 3, []) := by rw [gettok]; rfl
  show tokenizeAux 6 ['1', '+', '2', '*', '3'] = _
  rw [tokenizeAux_cons h1 (by simp), tokenizeAux_cons h2 (by simp),
    tokenizeAux_cons h3 (by simp), tokenizeAux_cons h4 (by simp),
    tokenizeAux_cons h5 (by simp), tokenizeAux_eof h0]

theorem tokenize_foo_call : tokenize "foo(1, 2+3)" =
    [.tok_identifier "foo", .tok_char '(', .tok_number 1, .tok_char ',',
     .tok_number 2, .tok_char '+', .tok_number 3, .tok_char ')'] := by
  have h0 : gettok ([] : List Char) = (.tok_eof, []) := by rw [gettok]; rfl
  have h1 : gettok "foo(1, 2+3)".data =
      (.tok_identifier "foo", ['(', '1', ',', ' ', '2', '+', '3', ')']) := by
    rw [gettok]; rfl
  have h2 : gettok ['(', '1', ',', ' ', '2', '+', '3', ')'] =
      (.tok_char '(', ['1', ',', ' ', '2', '+', '3', ')']) := by
    rw [gettok]; rfl
  have h3 : gettok ['1', ',', ' ', '2', '+', '3', ')'] =
      (.tok_number 1, [',', ' ', '2', '+', '3', ')']) := by rw [gettok]; rfl
  have h4 : gettok [',', ' ', '2', '+', '3', ')'] =
      (.tok_char ',', [' ', '2', '+', '3', ')']) := by rw [gettok]; rfl
  have h5 : gettok [' ', '2', '+', '3', ')'] =
      (.tok_number 2, ['+', '3', ')']) := by rw [gettok]; rfl
  have h6 : gettok ['+', '3', ')'] = (.tok_char '+', ['3', ')']) := by
    rw [gettok]; rfl
  have h7 : gettok ['3', ')'] = (.tok_number 3, [')']) := by rw [gettok]; rfl
  have h8 : gettok [')'] = (.tok_char ')', []) := by rw [gettok]; rfl
  show tokenizeAux 12 "foo(1, 2+3)".data = _
  rw [tokenizeAux_cons h1 (by simp), tokenizeAux_cons h2 (by simp),
    tokenizeAux_cons h3 (by simp), tokenizeAux_cons h4 (by simp),
    tokenizeAux_cons h5 (by simp), tokenizeAux_cons h6 (by simp),
    tokenizeAux_cons h7 (by simp), tokenizeAux_cons h8 (by simp),
    tokenizeAux_eof h0]

/-! ## Helper lemmas for precedence climbing over `-`-chains -/

theorem chain_flat_cons (y : String) (ys : List String) :
    ((y :: ys).flatMap fun z => [Tok.tok_char '-', Tok.tok_identifier z]) =
      .tok_char '-' :: .tok_identifier y ::
        (ys.flatMap fun z => [Tok.tok_char '-', Tok.tok_identifier z]) := rfl

theorem chain_head_prec (ys : List String) :
    GetTokPrecedencePure (curTok
      (ys.flatMap fun z => [Tok.tok_char '-', Tok.tok_identifier z])) ≤ 20 := by
  cases ys with
  | nil => decide
  | cons z zs => rw [chain_flat_cons, curTok_cons]; decide

theorem chain_head_ne_paren (ys : List String) :
    curTok (ys.flatMap fun z => [Tok.tok_char '-', Tok.tok_identifier z]) ≠
      .tok_char '(' := by
  cases ys with
  | nil => decide
  | cons z zs => rw [chain_flat_cons, curTok_cons]; decide

/-- With at least two units of fuel, an identifier not followed by `(`
parses as a bare `VariableExprAST`. -/
theorem ParsePrimary_var (f : ℕ) (s : String) (L : List Tok) (hf : 2 ≤ f)
    (h : curTok L ≠ .tok_char '(') :
    ParsePrimary f (.tok_identifier s :: L) = .ok (.VariableExprAST s, L) := by
  obtain ⟨g, rfl⟩ : ∃ g, f = g + 1 + 1 := ⟨f - 2, by omega⟩
  rw [ParsePrimary]
  show ParseIdentifierExpr (g + 1) s (.tok_identifier s :: L) = _
  rw [ParseIdentifierExpr]
  show (if curTok L ≠ .tok_char '(' then _ else _) = _
  rw [if_pos h]
  rfl

/-- Precedence climbing over a chain of identifiers joined by the
equal-precedence operator `-` folds the operands from the left. -/
theorem chainRHS (xs : List String) :
    ∀ (f : ℕ) (prec : Int) (lhs : ExprAST), 0 ≤ prec → prec ≤ 20 →
    ParseBinOpRHS (3 * xs.length + 1 + f) prec lhs
      (xs.flatMap fun y => [Tok.tok_char '-', Tok.tok_identifier y]) =
    .ok (xs.foldl (fun acc y => .BinaryExprAST '-' acc (.VariableExprAST y))
      lhs, []) := by
  induction xs with
  | nil =>
    intro f prec lhs h0 h20
    simp only [List.length_nil, List.flatMap_nil, List.foldl_nil]
    rw [show 3 * 0 + 1 + f = f + 1 from by omega]
    rw [ParseBinOpRHS]
    have hp : GetTokPrecedencePure (curTok ([] : List Tok)) = -1 := by decide
    rw [hp]
    rw [if_pos (by omega)]
  | cons y ys ih =>
    intro f prec lhs h0 h20
    rw [chain_flat_cons]
    rw [show 3 * (y :: ys).length + 1 + f = (3 * ys.length + 3 + f) + 1 from by
      simp [List.length_cons]; omega]
    rw [ParseBinOpRHS]
    rw [curTok_cons]
    have hp : GetTokPrecedencePure (Tok.tok_char '-') = 20 := by decide
    rw [hp, if_neg (by omega)]
    dsimp only [getNextToken, List.tail_cons]
    rw [ParsePrimary_var _ _ _ (by omega) (chain_head_ne_paren ys)]
    dsimp only []
    rw [if_neg (by have := chain_head_prec ys; omega)]
    rw [List.foldl_cons]
    rw [show 3 * ys.length + 3 + f = 3 * ys.length + 1 + (f + 2) from by omega]
    exact ih (f + 2) prec _ h0 h20

/-! ## Claim C1 -/

/-- C1: precedence climbing in `ParseBinOpRHS` builds left-associative
trees for chains of equal-precedence operators and right-heavy nesting
for strictly higher-precedence tails: `"a-b-c"` parses to
`BinaryOp('-', BinaryOp('-', a, b), c)`, `"1+2*3"` parses to
`BinaryOp('+', 1, BinaryOp('*', 2, 3))`; generally, any `-`-chain of
identifiers folds from the left and any `x + y * z` token shape nests
the `*` under the right operand of `+`. -/
theorem C1_precedence_climbing :
    (parseExpressionString "a-b-c" =
      .ok (.BinaryExprAST '-'
        (.BinaryExprAST '-' (.VariableExprAST "a") (.VariableExprAST "b"))
        (.VariableExprAST "c"), [])) ∧
    (parseExpressionString "1+2*3" =
      .ok (.BinaryExprAST '+' (.NumberExprAST 1)
        (.BinaryExprAST '*' (.NumberExprAST 2) (.NumberExprAST 3)), [])) ∧
    (∀ (x : String) (xs : List String) (f : ℕ),
      ParseExpression (3 * xs.length + 3 + f)
        (.tok_identifier x ::
          (xs.flatMap fun y => [Tok.tok_char '-', Tok.tok_identifier y])) =
      .ok (xs.foldl
        (fun acc y => .BinaryExprAST '-' acc (.VariableExprAST y))
        (.VariableExprAST x), [])) ∧
    (∀ p q r : ℚ,
      ParseExpression 9
        [.tok_number p, .tok_char '+', .tok_number q, .tok_char '*',
         .tok_number r] =
      .ok (.BinaryExprAST '+' (.NumberExprAST p)
        (.BinaryExprAST '*' (.NumberExprAST q) (.NumberExprAST r)), [])) := by
  refine ⟨?_, ?_, ?_, ?_⟩
  · show ParseExpression 14 (tokenize "a-b-c") = _
    rw [tokenize_abc]
    rfl
  · show ParseExpression 14 (tokenize "1+2*3") = _
    rw [tokenize_123]
    rfl
  · intro x xs f
    rw [show 3 * xs.length + 3 + f = (3 * xs.length + 2 + f) + 1 from by omega]
    rw [ParseExpression]
    rw [ParsePrimary_var _ _ _ (by omega) (chain_head_ne_paren xs)]
    dsimp only []
    rw [show 3 * xs.length + 2 + f = 3 * xs.length + 1 + (f + 1) from by omega]
    exact chainRHS xs (f + 1) 0 _ (by omega) (by omega)
  · intro p q r
    rfl

/-! ## Claim C2 -/

/-- C2: `ParseTopLevelExpr` wraps any successfully parsed expression in
a `FunctionAST` whose prototype is named `__anon_expr` and has no
parameters, propagates any expression-parse failure, and `"42"` parses
to `FunctionDef(Prototype("__anon_expr", []), NumberLiteral(42))`. -/
theorem C2_top_level_expr :
    (∀ (fuel : ℕ) (ts rest : List Tok) (e : ExprAST),
      ParseExpression fuel ts = .ok (e, rest) →
      ParseTopLevelExpr fuel ts = .ok (⟨⟨"__anon_expr", []⟩, e⟩, rest)) ∧
    (∀ (fuel : ℕ) (ts : List Tok) (msg : String),
      ParseExpression fuel ts = .error msg →
      ParseTopLevelExpr fuel ts = .error msg) ∧
    (parseTopLevelString "42" =
      .ok (⟨⟨"__anon_expr", []⟩, .NumberExprAST 42⟩, [])) := by
  refine ⟨?_, ?_, ?_⟩
  · intro fuel ts rest e h
    rw [ParseTopLevelExpr, h]
  · intro fuel ts msg h
    rw [ParseTopLevelExpr, h]
  · show ParseTopLevelExpr 8 (tokenize "42") = _
    rw [tokenize_42]
    rfl

/-- Witness for C2 at the concrete input `"42"`: the expression parse
succeeds and the theorem's first conjunct yields the anonymous
wrapper. -/
theorem C2_top_level_expr_witness :
    ParseTopLevelExpr 8 [.tok_number 42] =
      .ok (⟨⟨"__anon_expr", []⟩, .NumberExprAST 42⟩, []) :=
  C2_top_level_expr.1 8 [.tok_number 42] [] (.NumberExprAST 42) rfl

/-! ## Helper lemmas for the precedence table -/

theorem char_eq_of_toNat_eq {c d : Char} (h : c.toNat = d.toNat) : c = d := by
  apply Char.eq_of_val_eq
  apply UInt32.eq_of_toBitVec_eq
  apply BitVec.eq_of_toNat_eq
  exact h

theorem startupPrec_eq :
    startupPrec = [(42, 40), (43, 20), (45, 20), (60, 10)] := by decide

set_option maxHeartbeats 1000000 in
theorem GetTokPrecedence_startup_unreg (n : ℕ) (h127 : n ≤ 127)
    (m1 : n ≠ 60) (m2 : n ≠ 43) (m3 : n ≠ 45) (m4 : n ≠ 42) :
    (GetTokPrecedence (n : Int) startupPrec).1 = -1 := by
  interval_cases n <;> first | omega | decide

theorem ParseBinOpRHS_low (fuel : ℕ) (prec : Int) (lhs : ExprAST)
    (ts : List Tok) (h : GetTokPrecedencePure (curTok ts) < prec) :
    ParseBinOpRHS (fuel + 1) prec lhs ts = .ok (lhs, ts) := by
  rw [ParseBinOpRHS, if_pos h]

/-- Every successful return of `ParseBinOpRHS` happens because the
precedence of the then-current token dropped below the minimum
required. -/
theorem ParseBinOpRHS_ok_prec :
    ∀ (fuel : ℕ) (prec : Int) (lhs e : ExprAST) (ts rest : List Tok),
    ParseBinOpRHS fuel prec lhs ts = .ok (e, rest) →
    GetTokPrecedencePure (curTok rest) < prec := by
  intro fuel
  induction fuel with
  | zero =>
    intro prec lhs e ts rest h
    rw [ParseBinOpRHS] at h
    exact absurd h (by simp)
  | succ f ih =>
    intro prec lhs e ts rest h
    rw [ParseBinOpRHS] at h
    by_cases hc : GetTokPrecedencePure (curTok ts) < prec
    · rw [if_pos hc] at h
      injection h with h2
      injection h2 with h3 h4
      subst h3; subst h4
      exact hc
    · rw [if_neg hc] at h
      dsimp only [] at h
      split at h
      · exact absurd h (by simp)
      · split at h
        · split at h
          · exact absurd h (by simp)
          · exact ih prec _ e _ rest h
        · exact ih prec _ e _ rest h

/-! ## Claim C3 -/

/-- C3: after the startup insertions, precedence lookup yields 10 for
`<`, 20 for `+` and `-`, 40 for `*`, `-1` for every non-ASCII token
code and every unregistered ASCII character; `ParseBinOpRHS` returns
its accumulated left operand unchanged exactly when the current token's
precedence is below the minimum, and every successful exit is of that
form. -/
theorem C3_precedence_lookup :
    (GetTokPrecedencePure (.tok_char '<') = 10 ∧
     GetTokPrecedencePure (.tok_char '+') = 20 ∧
     GetTokPrecedencePure (.tok_char '-') = 20 ∧
     GetTokPrecedencePure (.tok_char '*') = 40) ∧
    (∀ t : Tok, isascii (tokCode t) = false → GetTokPrecedencePure t = -1) ∧
    (∀ c : Char, c.toNat ≤ 127 → c ≠ '<' → c ≠ '+' → c ≠ '-' → c ≠ '*' →
      GetTokPrecedencePure (.tok_char c) = -1) ∧
    (∀ (fuel : ℕ) (prec : Int) (lhs : ExprAST) (ts : List Tok),
      GetTokPrecedencePure (curTok ts) < prec →
      ParseBinOpRHS (fuel + 1) prec lhs ts = .ok (lhs, ts)) ∧
    (∀ (fuel : ℕ) (prec : Int) (lhs e : ExprAST) (ts rest : List Tok),
      ParseBinOpRHS fuel prec lhs ts = .ok (e, rest) →
      GetTokPrecedencePure (curTok rest) < prec) := by
  refine ⟨⟨by decide, by decide, by decide, by decide⟩, ?_, ?_,
    ParseBinOpRHS_low, ParseBinOpRHS_ok_prec⟩
  · intro t h
    cases t with
    | tok_char c =>
      rw [GetTokPrecedencePure, GetTokPrecedence, h]
      rfl
    | tok_eof => decide
    | tok_def => decide
    | tok_extern' => decide
    | tok_identifier s =>
      rw [GetTokPrecedencePure, GetTokPrecedence, show tokCode
        (.tok_identifier s) = -4 from rfl]
      decide
    | tok_number v =>
      rw [GetTokPrecedencePure, GetTokPrecedence, show tokCode
        (.tok_number v) = -5 from rfl]
      decide
  · intro c h127 h1 h2 h3 h4
    have n1 : c.toNat ≠ 60 := fun h => h1 (char_eq_of_toNat_eq h)
    have n2 : c.toNat ≠ 43 := fun h => h2 (char_eq_of_toNat_eq h)
    have n3 : c.toNat ≠ 45 := fun h => h3 (char_eq_of_toNat_eq h)
    have n4 : c.toNat ≠ 42 := fun h => h4 (char_eq_of_toNat_eq h)
    exact GetTokPrecedence_startup_unreg c.toNat h127 n1 n2 n3 n4

/-- Witness for C3 at concrete inputs: the keyword token `extern` is
non-ASCII and unknown, `(` is ASCII but unregistered, an immediately
too-weak token (`eof`, precedence −1, minimum 0) returns the left
operand unchanged, and that successful exit indeed has precedence below
the minimum. -/
theorem C3_precedence_lookup_witness :
    GetTokPrecedencePure .tok_extern' = -1 ∧
    GetTokPrecedencePure (.tok_char '(') = -1 ∧
    ParseBinOpRHS 1 0 (.NumberExprAST 7) [] = .ok (.NumberExprAST 7, []) ∧
    GetTokPrecedencePure (curTok ([] : List Tok)) < 0 :=
  ⟨C3_precedence_lookup.2.1 .tok_extern' (by decide),
   C3_precedence_lookup.2.2.1 '(' (by decide) (by decide) (by decide)
     (by decide) (by decide),
   C3_precedence_lookup.2.2.2.1 0 0 (.NumberExprAST 7) [] (by decide),
   C3_precedence_lookup.2.2.2.2 1 0 (.NumberExprAST 7) (.NumberExprAST 7)
     [] [] rfl⟩

/-! ## Helper lemmas for the `std::map` model (`operator[]`) -/

theorem mapFind_none_of_lt (k : Int) :
    ∀ (m : PrecMap), (∀ x ∈ m, k < x.1) → mapFind m k = none := by
  intro m
  induction m with
  | nil => intro h; rfl
  | cons p rest ih =>
    obtain ⟨a, v⟩ := p
    intro h
    rw [mapFind]
    rw [if_neg (by have := h (a, v) (by simp); simp at this ⊢; omega)]
    exact ih fun x hx => h x (by simp [hx])

/-- Behaviour of `operator[]` on a sorted map: the returned value is the
stored one (default zero when absent); afterwards the consulted key maps
to that value and every other key is untouched; sortedness is kept; and
any new entry carries the consulted key. -/
theorem mapIndex_spec (k : Int) :
    ∀ (m : PrecMap), PrecSorted m →
    (mapIndex m k).1 = (mapFind m k).getD 0 ∧
    (∀ k', mapFind (mapIndex m k).2 k' =
      if k' = k then some ((mapFind m k).getD 0) else mapFind m k') ∧
    PrecSorted (mapIndex m k).2 ∧
    (∀ x ∈ (mapIndex m k).2, x.1 = k ∨ x ∈ m) := by
  intro m
  induction m with
  | nil =>
    intro _
    refine ⟨rfl, fun k' => ?_, ?_, ?_⟩
    · rw [show mapIndex [] k = (0, [(k, 0)]) from rfl]
      rw [mapFind, mapFind]
      rfl
    · exact List.Pairwise.cons (by simp) List.Pairwise.nil
    · simp [mapIndex]
  | cons p rest ih =>
    obtain ⟨a, v⟩ := p
    intro hs
    have ha : ∀ x ∈ rest, a < x.1 := by
      intro x hx
      exact (List.pairwise_cons.mp hs).1 x hx
    have hrest : PrecSorted rest := (List.pairwise_cons.mp hs).2
    rcases lt_trichotomy k a with hlt | heq | hgt
    · -- k < a: fresh zero entry inserted in front
      have hmi : mapIndex ((a, v) :: rest) k =
          (0, (k, 0) :: (a, v) :: rest) := by
        rw [mapIndex, if_pos hlt]
      have hfind : mapFind ((a, v) :: rest) k = none := by
        rw [mapFind, if_neg (by omega)]
        exact mapFind_none_of_lt k rest fun x hx => lt_trans hlt (ha x hx)
      rw [hmi, hfind]
      refine ⟨rfl, fun k' => ?_, ?_, ?_⟩
      · rw [show mapFind ((k, 0) :: (a, v) :: rest) k' =
          if k' = k then some 0 else mapFind ((a, v) :: rest) k' from by
            rw [mapFind]]
        rfl
      · refine List.Pairwise.cons ?_ hs
        intro x hx
        simp only [List.mem_cons] at hx
        rcases hx with rfl | hx
        · exact hlt
        · exact lt_trans hlt (ha x hx)
      · intro x hx
        simp only [List.mem_cons] at hx ⊢
        rcases hx with rfl | rfl | hx
        · exact Or.inl rfl
        · exact Or.inr (Or.inl rfl)
        · exact Or.inr (Or.inr hx)
    · -- k = a: the key is present; nothing changes
      subst heq
      have hmi : mapIndex ((k, v) :: rest) k = (v, (k, v) :: rest) := by
        rw [mapIndex, if_neg (by omega), if_pos rfl]
      have hfind : mapFind ((k, v) :: rest) k = some v := by
        rw [mapFind, if_pos rfl]
      rw [hmi, hfind]
      refine ⟨rfl, fun k' => ?_, hs, fun x hx => Or.inr hx⟩
      by_cases hk : k' = k
      · subst hk; rw [if_pos rfl]; exact hfind
      · rw [if_neg hk]
    · -- a < k: recurse into the tail
      obtain ⟨ih1, ih2, ih3, ih4⟩ := ih hrest
      have hmi : mapIndex ((a, v) :: rest) k =
          ((mapIndex rest k).1, (a, v) :: (mapIndex rest k).2) := by
        rw [mapIndex, if_neg (by omega), if_neg (by omega)]
      have hfind : mapFind ((a, v) :: rest) k = mapFind rest k := by
        rw [mapFind, if_neg (by omega)]
      rw [hmi, hfind]
      refine ⟨ih1, fun k' => ?_, ?_, ?_⟩
      · by_cases hk : k' = a
        · rw [show mapFind ((a, v) :: (mapIndex rest k).2) k' = some v from by
            rw [mapFind, if_pos hk]]
          rw [if_neg (by omega)]
          rw [show mapFind ((a, v) :: rest) k' = some v from by
            rw [mapFind, if_pos hk]]
        · rw [show mapFind ((a, v) :: (mapIndex rest k).2) k' =
            mapFind (mapIndex rest k).2 k' from by rw [mapFind, if_neg hk]]
          rw [ih2 k']
          rw [show mapFind ((a, v) :: rest) k' = mapFind rest k' from by
            rw [mapFind, if_neg hk]]
      · refine List.Pairwise.cons ?_ ih3
        intro x hx
        rcases ih4 x hx with h1 | h2
        · show a < x.1
          omega
        · exact ha x h2
      · intro x hx
        simp only [List.mem_cons] at hx ⊢
        rcases hx with rfl | hx
        · exact Or.inr (Or.inl rfl)
        · rcases ih4 x hx with h1 | h2
          · exact Or.inl h1
          · exact Or.inr (Or.inr h2)

theorem GetTokPrecedence_snd (n : Int) (m : PrecMap) :
    (GetTokPrecedence n m).2 = if isascii n then (mapIndex m n).2 else m := by
  rw [GetTokPrecedence]
  by_cases h : isascii n
  · rw [if_pos h, if_pos h]
    dsimp only []
    split <;> rfl
  · rw [if_neg h, if_neg h]

theorem GetTokPrecedence_fst (n : Int) (m : PrecMap) :
    (GetTokPrecedence n m).1 = if isascii n then
      (if (mapIndex m n).1 ≤ 0 then -1 else (mapIndex m n).1) else -1 := by
  rw [GetTokPrecedence]
  by_cases h : isascii n
  · rw [if_pos h, if_pos h]
    dsimp only []
    split <;> rfl
  · rw [if_neg h, if_neg h]

/-- Consulting the table touches no existing entry and changes no
lookup result, though it may grow the map by a zero entry. -/
theorem consultationPreserves (m : PrecMap) (hs : PrecSorted m) (t : Tok) :
    PrecSorted (GetTokPrecedence (tokCode t) m).2 ∧
    (∀ (k : Int) (v : Int), mapFind m k = some v →
      mapFind (GetTokPrecedence (tokCode t) m).2 k = some v) ∧
    (∀ u : Tok,
      (GetTokPrecedence (tokCode u) (GetTokPrecedence (tokCode t) m).2).1 =
      (GetTokPrecedence (tokCode u) m).1) := by
  rw [GetTokPrecedence_snd]
  by_cases hA : isascii (tokCode t)
  · rw [if_pos hA]
    obtain ⟨s1, s2, s3, s4⟩ := mapIndex_spec (tokCode t) m hs
    refine ⟨s3, ?_, ?_⟩
    · intro k v hk
      rw [s2 k]
      by_cases he : k = tokCode t
      · subst he
        rw [if_pos rfl, hk]
        rfl
      · rw [if_neg he]
        exact hk
    · intro u
      rw [GetTokPrecedence_fst, GetTokPrecedence_fst]
      by_cases hU : isascii (tokCode u)
      · rw [if_pos hU, if_pos hU]
        obtain ⟨u1, _, _, _⟩ :=
          mapIndex_spec (tokCode u) (mapIndex m (tokCode t)).2 s3
        obtain ⟨w1, _, _, _⟩ := mapIndex_spec (tokCode u) m hs
        rw [u1, w1, s2 (tokCode u)]
        by_cases he : tokCode u = tokCode t
        · rw [if_pos he, he]
          rfl
        · rw [if_neg he]
      · rw [if_neg hU, if_neg hU]
  · rw [if_neg hA]
    exact ⟨hs, fun k v hk => hk, fun u => rfl⟩

/-! ## Claim C9 (corrected) -/

/-- C9 counterexample: the claim says consulting the table leaves it
exactly as startup left it, but `GetTokPrecedence` reads the map with
`std::map::operator[]`, which default-inserts: one consultation for the
unregistered ASCII character `(` changes the table's contents. -/
theorem C9_table_mutation_counterexample :
    (GetTokPrecedence (tokCode (.tok_char '(')) startupPrec).2 ≠
      startupPrec := by
  decide

/-- C9 (amended): the startup table is sorted, the parser's lookup is
exactly a consultation of the startup table, and consulting any sorted
table never changes an existing entry, never removes one, and never
changes the result of any lookup — it may only insert a zero-valued
entry for the consulted key, which every lookup treats as "not a binary
operator". -/
theorem C9_precedence_table_frame :
    PrecSorted startupPrec ∧
    (∀ t : Tok,
      GetTokPrecedencePure t = (GetTokPrecedence (tokCode t) startupPrec).1) ∧
    (∀ (m : PrecMap), PrecSorted m → ∀ t : Tok,
      PrecSorted (GetTokPrecedence (tokCode t) m).2 ∧
      (∀ (k : Int) (v : Int), mapFind m k = some v →
        mapFind (GetTokPrecedence (tokCode t) m).2 k = some v) ∧
      (∀ u : Tok,
        (GetTokPrecedence (tokCode u) (GetTokPrecedence (tokCode t) m).2).1 =
        (GetTokPrecedence (tokCode u) m).1)) :=
  ⟨by decide, fun t => rfl, consultationPreserves⟩

/-- Witness for C9 (amended) on the startup table and the consultation
that mutates it: the entry for `<` survives the consultation of `(`
unchanged, and the result of looking `+` up afterwards is unchanged. -/
theorem C9_precedence_table_frame_witness :
    mapFind (GetTokPrecedence (tokCode (.tok_char '(')) startupPrec).2 60 =
      some 10 ∧
    (GetTokPrecedence (tokCode (.tok_char '+'))
        (GetTokPrecedence (tokCode (.tok_char '(')) startupPrec).2).1 =
      (GetTokPrecedence (tokCode (.tok_char '+')) startupPrec).1 :=
  ⟨(C9_precedence_table_frame.2.2 startupPrec (by decide)
      (.tok_char '(')).2.1 60 10 (by decide),
   (C9_precedence_table_frame.2.2 startupPrec (by decide)
      (.tok_char '(')).2.2 (.tok_char '+')⟩

/-! ## Helper lemmas for the prototype registry -/

theorem lookupProto_recordProto (m : ProtoRegistry) (k : String)
    (v : PrototypeAST) : lookupProto (recordProto m k v) k = some v := by
  induction m with
  | nil => simp [recordProto, lookupProto]
  | cons p rest ih =>
    obtain ⟨a, w⟩ := p
    by_cases h : a = k
    · simp [recordProto, lookupProto, h]
    · simp [recordProto, lookupProto, h, ih]

theorem lookupProto_recordProto_ne (m : ProtoRegistry) (k : String)
    (v : PrototypeAST) (k' : String) (h : k' ≠ k) :
    lookupProto (recordProto m k v) k' = lookupProto m k' := by
  induction m with
  | nil => simp [recordProto, lookupProto, Ne.symm h]
  | cons p rest ih =>
    obtain ⟨a, w⟩ := p
    by_cases ha : a = k
    · have hkk : k ≠ k' := fun he => h he.symm
      simp [recordProto, lookupProto, ha, hkk]
    · by_cases hk : a = k'
      · simp [recordProto, lookupProto, ha, hk, h]
      · simp [recordProto, lookupProto, ha, hk, ih]

theorem lookupProto_recordProto_cases (m : ProtoRegistry) (a k : String)
    (b : PrototypeAST) : lookupProto (recordProto m a b) k =
      if a = k then some b else lookupProto m k := by
  by_cases h : a = k
  · rw [if_pos h, h]
    exact lookupProto_recordProto m k b
  · rw [if_neg h]
    exact lookupProto_recordProto_ne m a b k fun he => h he.symm

theorem applyRecords_foldl (ops : List (String × PrototypeAST)) :
    ∀ (m : ProtoRegistry) (k : String),
    lookupProto (ops.foldl (fun m p => recordProto m p.1 p.2) m) k =
      ops.foldl (fun acc p => if p.1 = k then some p.2 else acc)
        (lookupProto m k) := by
  induction ops with
  | nil => intro m k; rfl
  | cons q tl ih =>
    intro m k
    obtain ⟨a, b⟩ := q
    rw [List.foldl_cons, List.foldl_cons, ih]
    rw [show lookupProto (recordProto m a b) k =
      if a = k then some b else lookupProto m k from
        lookupProto_recordProto_cases m a k b]

theorem lastRecorded_of_absent (k : String) :
    ∀ (ops : List (String × PrototypeAST)) (acc : Option PrototypeAST),
    (∀ p ∈ ops, p.1 ≠ k) →
    ops.foldl (fun acc p => if p.1 = k then some p.2 else acc) acc = acc := by
  intro ops
  induction ops with
  | nil => intro acc _; rfl
  | cons q tl ih =>
    intro acc h
    rw [List.foldl_cons, if_neg (h q (by simp))]
    exact ih acc fun p hp => h p (by simp [hp])

/-! ## Claim C7 -/

/-- C7: the prototype registry is a last-seen-wins map: `record` is an
unconditional upsert leaving other names alone; after any sequence of
records, `lookup` returns the most recently recorded prototype for the
name, absent for never-recorded names; and no operation removes an
entry. -/
theorem C7_prototype_registry :
    (∀ (m : ProtoRegistry) (k : String) (v : PrototypeAST),
      lookupProto (recordProto m k v) k = some v) ∧
    (∀ (m : ProtoRegistry) (k : String) (v : PrototypeAST) (k' : String),
      k' ≠ k → lookupProto (recordProto m k v) k' = lookupProto m k') ∧
    (∀ (ops : List (String × PrototypeAST)) (k : String),
      lookupProto (applyRecords ops) k = lastRecorded ops k) ∧
    (∀ (ops : List (String × PrototypeAST)) (k : String),
      (∀ p ∈ ops, p.1 ≠ k) → lookupProto (applyRecords ops) k = none) ∧
    (∀ (m : ProtoRegistry) (k : String) (v : PrototypeAST) (k' : String)
      (v' : PrototypeAST), lookupProto m k = some v →
      ∃ w, lookupProto (recordProto m k' v') k = some w) := by
  refine ⟨lookupProto_recordProto, lookupProto_recordProto_ne, ?_, ?_, ?_⟩
  · intro ops k
    exact applyRecords_foldl ops [] k
  · intro ops k h
    rw [show lookupProto (applyRecords ops) k =
      lastRecorded ops k from applyRecords_foldl ops [] k]
    exact lastRecorded_of_absent k ops none h
  · intro m k v k' v' h
    by_cases he : k' = k
    · subst he
      exact ⟨v', lookupProto_recordProto m k' v'⟩
    · refine ⟨v, ?_⟩
      rw [lookupProto_recordProto_ne m k' v' k fun x => he x.symm]
      exact h

/-- Witness for C7 on a concrete record sequence: recording `foo` twice
and `bar` once, lookup of `foo` yields the second prototype, lookup of
`bar` is untouched by the second `foo` record, lookup of a
never-recorded name is absent, and the `bar` entry survives another
record. -/
theorem C7_prototype_registry_witness :
    lookupProto (recordProto [("bar", ⟨"bar", []⟩)] "foo" ⟨"foo", ["a"]⟩)
      "foo" = some ⟨"foo", ["a"]⟩ ∧
    lookupProto (recordProto [("bar", ⟨"bar", []⟩)] "foo" ⟨"foo", ["a"]⟩)
      "bar" = lookupProto [("bar", ⟨"bar", []⟩)] "bar" ∧
    lookupProto (applyRecords [("foo", ⟨"foo", ["a"]⟩), ("bar", ⟨"bar", []⟩),
      ("foo", ⟨"foo", ["a", "b"]⟩)]) "baz" = none ∧
    (∃ w, lookupProto (recordProto [("bar", ⟨"bar", []⟩)] "foo"
      ⟨"foo", ["a"]⟩) "bar" = some w) :=
  ⟨C7_prototype_registry.1 [("bar", ⟨"bar", []⟩)] "foo" ⟨"foo", ["a"]⟩,
   C7_prototype_registry.2.1 [("bar", ⟨"bar", []⟩)] "foo" ⟨"foo", ["a"]⟩
     "bar" (by decide),
   C7_prototype_registry.2.2.2.1 [("foo", ⟨"foo", ["a"]⟩),
     ("bar", ⟨"bar", []⟩), ("foo", ⟨"foo", ["a", "b"]⟩)] "baz"
     (by intro p hp; fin_cases hp <;> decide),
   C7_prototype_registry.2.2.2.2 [("bar", ⟨"bar", []⟩)] "bar" ⟨"bar", []⟩
     "foo" ⟨"foo", ["a"]⟩ (by decide)⟩

/-! ## Helper lemmas for the individual parsing routines -/

theorem ParsePrimary_ident_dispatch (fuel : ℕ) (s : String) (ts : List Tok)
    (h : curTok ts = .tok_identifier s) :
    ParsePrimary (fuel + 1) ts = ParseIdentifierExpr fuel s ts := by
  rw [ParsePrimary, h]

theorem ParseIdentifierExpr_var (fuel : ℕ) (idName : String) (ts : List Tok)
    (h : curTok (getNextToken ts) ≠ .tok_char '(') :
    ParseIdentifierExpr (fuel + 1) idName ts =
      .ok (.VariableExprAST idName, getNextToken ts) := by
  rw [ParseIdentifierExpr]
  try dsimp only []
  rw [if_pos h]

theorem ParseIdentifierExpr_nilargs (fuel : ℕ) (idName : String)
    (ts : List Tok) (h1 : curTok (getNextToken ts) = .tok_char '(')
    (h2 : curTok (getNextToken (getNextToken ts)) = .tok_char ')') :
    ParseIdentifierExpr (fuel + 1) idName ts =
      .ok (.CallExprAST idName [],
        getNextToken (getNextToken (getNextToken ts))) := by
  rw [ParseIdentifierExpr]
  try dsimp only []
  rw [if_neg (fun hne => hne h1), if_pos h2]

theorem ParseIdentifierExpr_args (fuel : ℕ) (idName : String) (ts : List Tok)
    (h1 : curTok (getNextToken ts) = .tok_char '(')
    (h2 : curTok (getNextToken (getNextToken ts)) ≠ .tok_char ')') :
    ParseIdentifierExpr (fuel + 1) idName ts =
      ParseArgsLoop fuel idName [] (getNextToken (getNextToken ts)) := by
  rw [ParseIdentifierExpr]
  try dsimp only []
  rw [if_neg (fun hne => hne h1), if_neg h2]

theorem ParseArgsLoop_close (fuel : ℕ) (idName : String) (args : List ExprAST)
    (ts rest : List Tok) (e : ExprAST)
    (h : ParseExpression fuel ts = .ok (e, rest))
    (hp : curTok rest = .tok_char ')') :
    ParseArgsLoop (fuel + 1) idName args ts =
      .ok (.CallExprAST idName (args ++ [e]), getNextToken rest) := by
  rw [ParseArgsLoop, h]
  try dsimp only []
  rw [if_pos hp]

theorem ParseArgsLoop_sep_error (fuel : ℕ) (idName : String)
    (args : List ExprAST) (ts rest : List Tok) (e : ExprAST)
    (h : ParseExpression fuel ts = .ok (e, rest))
    (hp : curTok rest ≠ .tok_char ')') (hc : curTok rest ≠ .tok_char ',') :
    ParseArgsLoop (fuel + 1) idName args ts =
      .error "Expected ')' or ',' in argument list" := by
  rw [ParseArgsLoop, h]
  try dsimp only []
  rw [if_neg hp, if_pos hc]

theorem ParseArgsLoop_comma (fuel : ℕ) (idName : String)
    (args : List ExprAST) (ts rest : List Tok) (e : ExprAST)
    (h : ParseExpression fuel ts = .ok (e, rest))
    (hp : curTok rest ≠ .tok_char ')') (hc : curTok rest = .tok_char ',') :
    ParseArgsLoop (fuel + 1) idName args ts =
      ParseArgsLoop fuel idName (args ++ [e]) (getNextToken rest) := by
  rw [ParseArgsLoop, h]
  try dsimp only []
  rw [if_neg hp, if_neg (fun hne => hne hc)]

theorem ParseParenExpr_ok (fuel : ℕ) (ts rest : List Tok) (e : ExprAST)
    (h : ParseExpression fuel ts = .ok (e, rest))
    (hp : curTok rest = .tok_char ')') :
    ParseParenExpr (fuel + 1) (.tok_char '(' :: ts) =
      .ok (e, getNextToken rest) := by
  rw [ParseParenExpr]
  try dsimp only [getNextToken, List.tail_cons]
  rw [h]
  try dsimp only []
  rw [if_neg (fun hne => hne hp)]

theorem ParseParenExpr_missing (fuel : ℕ) (ts rest : List Tok) (e : ExprAST)
    (h : ParseExpression fuel ts = .ok (e, rest))
    (hp : curTok rest ≠ .tok_char ')') :
    ParseParenExpr (fuel + 1) (.tok_char '(' :: ts) = .error "Expected )" := by
  rw [ParseParenExpr]
  try dsimp only [getNextToken, List.tail_cons]
  rw [h]
  try dsimp only []
  rw [if_pos hp]

theorem ParseDefinition_proto_error (fuel : ℕ) (ts : List Tok) (msg : String)
    (h : ParsePrototype (getNextToken ts) = .error msg) :
    ParseDefinition fuel ts = .error msg := by
  rw [ParseDefinition]
  try dsimp only []
  rw [h]

theorem ParseDefinition_body_error (fuel : ℕ) (ts ts2 : List Tok)
    (Proto : PrototypeAST) (msg : String)
    (h1 : ParsePrototype (getNextToken ts) = .ok (Proto, ts2))
    (h2 : ParseExpression fuel ts2 = .error msg) :
    ParseDefinition fuel ts = .error msg := by
  rw [ParseDefinition]
  try dsimp only []
  rw [h1]
  try dsimp only []
  rw [h2]

theorem ParseDefinition_ok (fuel : ℕ) (ts ts2 ts3 : List Tok)
    (Proto : PrototypeAST) (E : ExprAST)
    (h1 : ParsePrototype (getNextToken ts) = .ok (Proto, ts2))
    (h2 : ParseExpression fuel ts2 = .ok (E, ts3)) :
    ParseDefinition fuel ts = .ok (⟨Proto, E⟩, ts3) := by
  rw [ParseDefinition]
  try dsimp only []
  rw [h1]
  try dsimp only []
  rw [h2]

theorem ParseExpression_primary_error (fuel : ℕ) (ts : List Tok)
    (msg : String) (h : ParsePrimary fuel ts = .error msg) :
    ParseExpression (fuel + 1) ts = .error msg := by
  rw [ParseExpression, h]

/-! ## Claim C4 (corrected) -/

/-- C4 counterexample: the diagnostic the code emits for a malformed
argument-list separator is `"Expected ')' or ',' in argument list"`
(capital E), not the `"expected ')' or ',' in argument list"` that the
claim states. -/
theorem C4_identifier_diag_counterexample :
    ParseIdentifierExpr 9 "foo"
      [.tok_identifier "foo", .tok_char '(', .tok_number 1, .tok_char ';'] =
      .error "Expected ')' or ',' in argument list" ∧
    "Expected ')' or ',' in argument list" ≠
      "expected ')' or ',' in argument list" :=
  ⟨rfl, by decide⟩

/-- C4 (amended): `ParsePrimary` hands the identifier's text to
`ParseIdentifierExpr`; a bare identifier (no `(` following) yields a
`VariableExprAST` with that text; with `(` following, a `CallExprAST`
is built with the comma-separated arguments up to `)` (zero directly,
or through the argument loop, which closes on `)`, continues past `,`,
and fails on any other separator with the diagnostic
`"Expected ')' or ',' in argument list"`); `"foo(1, 2+3)"` parses to
`Call("foo", [1, 2+3])`. -/
theorem C4_identifier_parsing :
    (∀ (fuel : ℕ) (s : String) (ts : List Tok),
      curTok ts = .tok_identifier s →
      ParsePrimary (fuel + 1) ts = ParseIdentifierExpr fuel s ts) ∧
    (∀ (fuel : ℕ) (idName : String) (ts : List Tok),
      curTok (getNextToken ts) ≠ .tok_char '(' →
      ParseIdentifierExpr (fuel + 1) idName ts =
        .ok (.VariableExprAST idName, getNextToken ts)) ∧
    (∀ (fuel : ℕ) (idName : String) (ts : List Tok),
      curTok (getNextToken ts) = .tok_char '(' →
      curTok (getNextToken (getNextToken ts)) = .tok_char ')' →
      ParseIdentifierExpr (fuel + 1) idName ts =
        .ok (.CallExprAST idName [],
          getNextToken (getNextToken (getNextToken ts)))) ∧
    (∀ (fuel : ℕ) (idName : String) (ts : List Tok),
      curTok (getNextToken ts) = .tok_char '(' →
      curTok (getNextToken (getNextToken ts)) ≠ .tok_char ')' →
      ParseIdentifierExpr (fuel + 1) idName ts =
        ParseArgsLoop fuel idName [] (getNextToken (getNextToken ts))) ∧
    (∀ (fuel : ℕ) (idName : String) (args : List ExprAST)
      (ts rest : List Tok) (e : ExprAST),
      ParseExpression fuel ts = .ok (e, rest) →
      curTok rest = .tok_char ')' →
      ParseArgsLoop (fuel + 1) idName args ts =
        .ok (.CallExprAST idName (args ++ [e]), getNextToken rest)) ∧
    (∀ (fuel : ℕ) (idName : String) (args : List ExprAST)
      (ts rest : List Tok) (e : ExprAST),
      ParseExpression fuel ts = .ok (e, rest) →
      curTok rest ≠ .tok_char ')' → curTok rest = .tok_char ',' →
      ParseArgsLoop (fuel + 1) idName args ts =
        ParseArgsLoop fuel idName (args ++ [e]) (getNextToken rest)) ∧
    (∀ (fuel : ℕ) (idName : String) (args : List ExprAST)
      (ts rest : List Tok) (e : ExprAST),
      ParseExpression fuel ts = .ok (e, rest) →
      curTok rest ≠ .tok_char ')' → curTok rest ≠ .tok_char ',' →
      ParseArgsLoop (fuel + 1) idName args ts =
        .error "Expected ')' or ',' in argument list") ∧
    (parseExpressionString "foo(1, 2+3)" =
      .ok (.CallExprAST "foo" [.NumberExprAST 1,
        .BinaryExprAST '+' (.NumberExprAST 2) (.NumberExprAST 3)], [])) := by
  refine ⟨ParsePrimary_ident_dispatch, ParseIdentifierExpr_var,
    ParseIdentifierExpr_nilargs, ParseIdentifierExpr_args,
    ParseArgsLoop_close, ParseArgsLoop_comma, ParseArgsLoop_sep_error, ?_⟩
  show ParseExpression 26 (tokenize "foo(1, 2+3)") = _
  rw [tokenize_foo_call]
  rfl

/-- Witness for C4 at concrete inputs: a bare identifier parses to a
variable reference, an argument list closed by `)` parses to a call,
and a `;` separator produces the (capitalized) diagnostic. -/
theorem C4_identifier_parsing_witness :
    ParseIdentifierExpr 1 "x" [.tok_identifier "x"] =
      .ok (.VariableExprAST "x", []) ∧
    ParseArgsLoop 4 "f" [] [.tok_number 1, .tok_char ')'] =
      .ok (.CallExprAST "f" [.NumberExprAST 1], []) ∧
    ParseArgsLoop 4 "f" [] [.tok_number 1, .tok_char ';'] =
      .error "Expected ')' or ',' in argument list" :=
  ⟨C4_identifier_parsing.2.1 0 "x" [.tok_identifier "x"] (by decide),
   C4_identifier_parsing.2.2.2.2.1 3 "f" [] [.tok_number 1, .tok_char ')']
     [.tok_char ')'] (.NumberExprAST 1) rfl (by decide),
   C4_identifier_parsing.2.2.2.2.2.2.1 3 "f" []
     [.tok_number 1, .tok_char ';'] [.tok_char ';'] (.NumberExprAST 1) rfl
     (by decide) (by decide)⟩

/-! ## Claim C5 (corrected) -/

/-- C5 counterexample: when the token after the inner expression is not
`)`, the diagnostic the code emits is `"Expected )"` (capital E), not
the `"expected )"` the claim states. -/
theorem C5_paren_diag_counterexample :
    ParseParenExpr 5 [.tok_char '(', .tok_number 1] = .error "Expected )" ∧
    "Expected )" ≠ "expected )" :=
  ⟨rfl, by decide⟩

/-- C5 (amended): parsing `( e )` returns exactly the AST that parsing
`e` returns — no parenthesis node exists in the `ExprAST` variant set,
so parenthesization is the identity on the resulting tree — and a
missing `)` fails with the diagnostic `"Expected )"`. -/
theorem C5_paren_identity :
    (∀ (fuel : ℕ) (ts rest : List Tok) (e : ExprAST),
      ParseExpression fuel ts = .ok (e, rest) →
      curTok rest = .tok_char ')' →
      ParseParenExpr (fuel + 1) (.tok_char '(' :: ts) =
        .ok (e, getNextToken rest)) ∧
    (∀ (fuel : ℕ) (ts rest : List Tok) (e : ExprAST),
      ParseExpression fuel ts = .ok (e, rest) →
      curTok rest ≠ .tok_char ')' →
      ParseParenExpr (fuel + 1) (.tok_char '(' :: ts) =
        .error "Expected )") ∧
    (∀ e : ExprAST, (∃ v, e = .NumberExprAST v) ∨
      (∃ n, e = .VariableExprAST n) ∨
      (∃ o l r, e = .BinaryExprAST o l r) ∨
      (∃ c as, e = .CallExprAST c as)) := by
  refine ⟨ParseParenExpr_ok, ParseParenExpr_missing, ?_⟩
  intro e
  cases e with
  | NumberExprAST v => exact Or.inl ⟨v, rfl⟩
  | VariableExprAST n => exact Or.inr (Or.inl ⟨n, rfl⟩)
  | BinaryExprAST o l r => exact Or.inr (Or.inr (Or.inl ⟨o, l, r, rfl⟩))
  | CallExprAST c as => exact Or.inr (Or.inr (Or.inr ⟨c, as, rfl⟩))

/-- Witness for C5 at concrete inputs: `(7)` parses to exactly the
number node, and `(7` with no closing paren yields the diagnostic. -/
theorem C5_paren_identity_witness :
    ParseParenExpr 4 [.tok_char '(', .tok_number 7, .tok_char ')'] =
      .ok (.NumberExprAST 7, []) ∧
    ParseParenExpr 4 [.tok_char '(', .tok_number 7] = .error "Expected )" :=
  ⟨C5_paren_identity.1 3 [.tok_number 7, .tok_char ')'] [.tok_char ')']
     (.NumberExprAST 7) rfl (by decide),
   C5_paren_identity.2.1 3 [.tok_number 7] [] (.NumberExprAST 7) rfl
     (by decide)⟩

/-! ## Claim C6 -/

/-- C6: parse failures propagate as empty results: `ParseDefinition`
fails with the prototype's diagnostic when the prototype sub-parse
fails, fails with the body's diagnostic when the body sub-parse fails,
and builds a `FunctionAST` owning both exactly when both succeed;
likewise `ParseExpression` propagates a failing primary. -/
theorem C6_definition_failure_propagation :
    (∀ (fuel : ℕ) (ts : List Tok) (msg : String),
      ParsePrototype (getNextToken ts) = .error msg →
      ParseDefinition fuel ts = .error msg) ∧
    (∀ (fuel : ℕ) (ts ts2 : List Tok) (Proto : PrototypeAST) (msg : String),
      ParsePrototype (getNextToken ts) = .ok (Proto, ts2) →
      ParseExpression fuel ts2 = .error msg →
      ParseDefinition fuel ts = .error msg) ∧
    (∀ (fuel : ℕ) (ts ts2 ts3 : List Tok) (Proto : PrototypeAST)
      (E : ExprAST),
      ParsePrototype (getNextToken ts) = .ok (Proto, ts2) →
      ParseExpression fuel ts2 = .ok (E, ts3) →
      ParseDefinition fuel ts = .ok (⟨Proto, E⟩, ts3)) ∧
    (∀ (fuel : ℕ) (ts : List Tok) (msg : String),
      ParsePrimary fuel ts = .error msg →
      ParseExpression (fuel + 1) ts = .error msg) :=
  ⟨ParseDefinition_proto_error, ParseDefinition_body_error,
   ParseDefinition_ok, ParseExpression_primary_error⟩

/-- Witness for C6 at concrete inputs: `def 1` fails with the
prototype diagnostic and no node; `def f() ;` fails with the body
diagnostic and no node; `def f() 7` builds the full `FunctionAST`. -/
theorem C6_definition_failure_propagation_witness :
    ParseDefinition 5 [.tok_def, .tok_number 1] =
      .error "Expected function name in prototype" ∧
    ParseDefinition 5 [.tok_def, .tok_identifier "f", .tok_char '(',
      .tok_char ')', .tok_char ';'] =
      .error "Unknown token when expecting an expression" ∧
    ParseDefinition 5 [.tok_def, .tok_identifier "f", .tok_char '(',
      .tok_char ')', .tok_number 7] =
      .ok (⟨⟨"f", []⟩, .NumberExprAST 7⟩, []) :=
  ⟨C6_definition_failure_propagation.1 5 [.tok_def, .tok_number 1]
     "Expected function name in prototype" rfl,
   C6_definition_failure_propagation.2.1 5 [.tok_def, .tok_identifier "f",
     .tok_char '(', .tok_char ')', .tok_char ';'] [.tok_char ';'] ⟨"f", []⟩
     "Unknown token when expecting an expression" rfl rfl,
   C6_definition_failure_propagation.2.2.1 5 [.tok_def, .tok_identifier "f",
     .tok_char '(', .tok_char ')', .tok_number 7] [.tok_number 7] []
     ⟨"f", []⟩ (.NumberExprAST 7) rfl rfl⟩

/-! ## Helper lemmas for the lexer branches -/

theorem isnumchar_not_alpha (c : Char) (h : isnumchar c = true) :
    isalpha c = false := by
  simp only [isnumchar, isdigit, Bool.or_eq_true, Bool.and_eq_true,
    decide_eq_true_eq] at h
  rcases h with h | h
  · rw [Bool.eq_false_iff]
    simp only [ne_eq, isalpha, Bool.or_eq_true, Bool.and_eq_true,
      decide_eq_true_eq]
    omega
  · subst h
    decide

/-- The number branch of `gettok`: when the first unconsumed
non-whitespace character is a digit or a decimal point, the maximal run
of digits and points is accumulated, its `strtod` value is the token's
payload, and exactly that run is consumed. -/
theorem gettok_number (s : List Char) (c : Char) (rest : List Char)
    (hd : s.dropWhile isspace = c :: rest) (hc : isnumchar c = true) :
    gettok s = (.tok_number (strtod (c :: rest.takeWhile isnumchar)),
      rest.dropWhile isnumchar) := by
  rw [gettok]
  rw [hd]
  try dsimp only []
  rw [if_neg (by simp [isnumchar_not_alpha c hc]), if_pos hc]

theorem strtod_malformed : strtod ['1', '.', '2', '.', '3'] = 6 / 5 := by
  have h : strtod ['1', '.', '2', '.', '3'] =
      ((digitsToNat ['1'] : ℚ)) + fracVal ['2'] := rfl
  rw [h, show digitsToNat ['1'] = 1 from rfl]
  rw [fracVal, show digitsToNat ['2'] = 2 from rfl]
  norm_num

theorem dropWhile_eq_nil_of_all (p : Char → Bool) :
    ∀ (l : List Char), (∀ c ∈ l, p c = true) → l.dropWhile p = [] := by
  intro l
  induction l with
  | nil => intro _; rfl
  | cons a t ih =>
    intro h
    rw [List.dropWhile_cons, if_pos (h a (by simp))]
    exact ih fun c hc => h c (by simp [hc])

/-- Leading whitespace never affects `gettok`'s result. -/
theorem gettok_ws (c : Char) (t : List Char) (h : isspace c = true) :
    gettok (c :: t) = gettok t := by
  have hd : List.dropWhile isspace (c :: t) = List.dropWhile isspace t := by
    rw [List.dropWhile_cons, if_pos h]
  rw [gettok]
  rw [hd]
  conv_rhs => rw [gettok]

theorem dropWhile_length_le (p : Char → Bool) :
    ∀ (l : List Char), (l.dropWhile p).length ≤ l.length := by
  intro l
  induction l with
  | nil => simp [List.dropWhile]
  | cons a t ih =>
    rw [List.dropWhile_cons]
    split
    · exact Nat.le_succ_of_le ih
    · exact Nat.le_refl _

theorem dropWhile_append_all (p : Char → Bool) :
    ∀ (body l : List Char), (∀ c ∈ body, p c = true) →
    (body ++ l).dropWhile p = l.dropWhile p := by
  intro body
  induction body with
  | nil => intro l _; rfl
  | cons a t ih =>
    intro l h
    rw [List.cons_append, List.dropWhile_cons, if_pos (h a (by simp))]
    exact ih l fun c hc => h c (by simp [hc])

/-- A `#` comment that runs to end-of-input makes `gettok` return the
end-of-input token directly, with no recursive call on record: the
whole input is consumed and the result is `tok_eof`. -/
theorem gettok_comment_eof (body : List Char)
    (hall : ∀ c ∈ body, iscommentchar c = true) :
    gettok ('#' :: body) = (.tok_eof, []) := by
  rw [gettok]
  rw [show List.dropWhile isspace ('#' :: body) = '#' :: body from by
    rw [List.dropWhile_cons, if_neg (by decide)]]
  try dsimp only []
  rw [if_neg (by decide), if_neg (by decide), if_pos rfl]
  rw [dropWhile_eq_nil_of_all iscommentchar body hall]

/-- A newline-terminated `#` comment produces no token of its own:
lexing resumes after it. -/
theorem gettok_comment_newline (body rest : List Char)
    (hall : ∀ c ∈ body, iscommentchar c = true) :
    gettok ('#' :: body ++ '\n' :: rest) = gettok rest := by
  rw [gettok]
  rw [show List.dropWhile isspace ('#' :: body ++ '\n' :: rest) =
      '#' :: (body ++ '\n' :: rest) from by
    rw [List.cons_append, List.dropWhile_cons, if_neg (by decide)]]
  try dsimp only []
  rw [if_neg (by decide), if_neg (by decide), if_pos rfl]
  rw [show (body ++ '\n' :: rest).dropWhile iscommentchar =
      '\n' :: rest from by
    rw [dropWhile_append_all iscommentchar body ('\n' :: rest) hall,
      List.dropWhile_cons, if_neg (by decide)]]
  exact gettok_ws '\n' rest (by decide)

/-- `gettok` never grows its input: the unconsumed remainder is at most
as long as the input, on every finite input. -/
theorem gettok_shrinks (n : ℕ) :
    ∀ (s : List Char), s.length ≤ n → (gettok s).2.length ≤ s.length := by
  induction n with
  | zero =>
    intro s hs
    have hnil : s = [] := List.length_eq_zero.mp (Nat.le_zero.mp hs)
    subst hnil
    rw [gettok]
    simp
  | succ n ih =>
    intro s hs
    rw [gettok]
    split
    · simp
    · rename_i c rest heq
      have hlen : rest.length + 1 ≤ s.length := by
        have h1 := dropWhile_length_le isspace s
        rw [heq] at h1
        simp only [List.length_cons] at h1
        omega
      have hid := dropWhile_length_le isalnum rest
      have hnum := dropWhile_length_le isnumchar rest
      dsimp only []
      split_ifs
      all_goals try (dsimp only []; omega)
      split
      · simp
      · rename_i d rest' heq2
        have hlen2 : rest'.length + 1 ≤ rest.length := by
          have h2 := dropWhile_length_le iscommentchar rest
          rw [heq2] at h2
          simp only [List.length_cons] at h2
          omega
        have hrec := ih (d :: rest') (by simp only [List.length_cons]; omega)
        simp only [List.length_cons] at hrec
        omega

/-! ## Claim C8 -/

/-- C8: whenever the first unconsumed non-whitespace character is a
digit or `.`, `gettok` accumulates the maximal run of digits and
decimal points and returns a number-literal token valued by the
standard decimal (`strtod`) parse of that text; malformed numeric text
such as `"1.2.3"` is still returned as a number-literal (valued `1.2`);
and the token type has no lexical-error kind at all. -/
theorem C8_number_lexing :
    (∀ (s : List Char) (c : Char) (rest : List Char),
      s.dropWhile isspace = c :: rest → isnumchar c = true →
      gettok s = (.tok_number (strtod (c :: rest.takeWhile isnumchar)),
        rest.dropWhile isnumchar)) ∧
    (gettok "1.2.3".data = (.tok_number (6 / 5), [])) ∧
    (∀ t : Tok, t = .tok_eof ∨ t = .tok_def ∨ t = .tok_extern' ∨
      (∃ s, t = .tok_identifier s) ∨ (∃ v, t = .tok_number v) ∨
      (∃ c, t = .tok_char c)) := by
  refine ⟨gettok_number, ?_, ?_⟩
  · have h2 : gettok "1.2.3".data =
        (.tok_number (strtod ['1', '.', '2', '.', '3']), ([] : List Char)) :=
      gettok_number "1.2.3".data '1' ['.', '2', '.', '3'] rfl (by decide)
    rw [h2, strtod_malformed]
  · intro t
    cases t with
    | tok_eof => exact Or.inl rfl
    | tok_def => exact Or.inr (Or.inl rfl)
    | tok_extern' => exact Or.inr (Or.inr (Or.inl rfl))
    | tok_identifier s => exact Or.inr (Or.inr (Or.inr (Or.inl ⟨s, rfl⟩)))
    | tok_number v =>
      exact Or.inr (Or.inr (Or.inr (Or.inr (Or.inl ⟨v, rfl⟩))))
    | tok_char c =>
      exact Or.inr (Or.inr (Or.inr (Or.inr (Or.inr ⟨c, rfl⟩))))

/-- Witness for C8 at the concrete input `"42"`: the digit run is
accumulated and valued by `strtod`. -/
theorem C8_number_lexing_witness :
    gettok ['4', '2'] = (.tok_number (strtod ['4', '2']), []) :=
  C8_number_lexing.1 ['4', '2'] '4' ['2'] rfl (by decide)

/-! ## Claim C10 -/

/-- C10: `gettok` terminates on every finite input (it is a total
function whose unconsumed remainder never exceeds the input); a `#`
comment running to end-of-input yields the end-of-input token directly;
and a newline-terminated comment produces no token of its own — lexing
just resumes after it. -/
theorem C10_gettok_termination :
    (∀ s : List Char, (gettok s).2.length ≤ s.length) ∧
    (∀ body : List Char, (∀ c ∈ body, iscommentchar c = true) →
      gettok ('#' :: body) = (.tok_eof, [])) ∧
    (∀ (body rest : List Char), (∀ c ∈ body, iscommentchar c = true) →
      gettok ('#' :: body ++ '\n' :: rest) = gettok rest) :=
  ⟨fun s => gettok_shrinks s.length s (Nat.le_refl _),
   gettok_comment_eof, gettok_comment_newline⟩

/-- Witness for C10 at concrete inputs: a comment to end-of-input
returns `tok_eof`, and a newline-terminated comment defers to the
remaining input. -/
theorem C10_gettok_termination_witness :
    gettok ('#' :: " hi".data) = (.tok_eof, []) ∧
    gettok ('#' :: " a".data ++ '\n' :: "7".data) = gettok "7".data :=
  ⟨C10_gettok_termination.2.1 " hi".data (by decide),
   C10_gettok_termination.2.2 " a".data "7".data (by decide)⟩

end Kaleidoscope
